import Mathlib

/-!
Shallow embedding of the perceptron.js core (Vector, Matrix, activation
registry, DenseVectorLayer) and proofs about the claims of its
specification.  JavaScript numbers are modelled as real numbers; thrown
`Error`s are modelled by the `Except JsError` monad; the JavaScript
engine-level behaviours that the source can reach (a `TypeError` from
indexing `undefined`, a read of `undefined` past the end of a row, a
silent out-of-range array write) are modelled by dedicated error values
so that they stay observably distinct from the errors the source throws
on purpose.
-/

namespace PerceptronJS

/-- Kinds of failure observable in the source: the five error families the
code throws (`Invalid matrix`, `[MATADD]/[VECADD]/[MATMUL]` dimension
mismatches, index-out-of-bounds, `[LAYC]` invalid layer spec) plus three
JavaScript-engine behaviours reachable through missing guards:
`JsTypeError` (indexing into `undefined`), `JsUndefinedRead` (reading past
the end of a row array, which yields `undefined` elements), and
`JsUncheckedWrite` (writing past the end of a row array, which silently
extends it and breaks rectangularity). -/
inductive JsError
  | InvalidMatrix
  | DimensionMismatch
  | IndexOutOfBounds
  | InvalidLayerSpec
  | JsTypeError
  | JsUndefinedRead
  | JsUncheckedWrite
deriving DecidableEq, Repr

/-- A JavaScript `Vector extends Array<number>`: an ordered list of reals. -/
abbrev Vec := List ℝ

noncomputable section

namespace Vector

/-- Translation of `Vector.add` (src/unnamed/part_001 lines 92-101 and
src/src/interface/math-entities/vector.ts lines 35-44, identical bodies):
after the length guard the loop body is `sum[i] = this[i] * b[i]`, i.e. it
multiplies component-wise even though the method is named `add`. -/
def add (a b : Vec) : Except JsError Vec :=
  if a.length != b.length then .error .DimensionMismatch
  else .ok (List.zipWith (fun x y => x * y) a b)

/-- Modelled from the spec: the file `src/math/vector.ts` actually imported
by the layer and exercised by the test suite is missing from the sources
(only `DenseVectorLayer` and the tests call `apply`).  Spec section 4.1:
`apply(f)` returns a new Vector with `f` applied to every element. -/
def apply (a : Vec) (f : ℝ → ℝ) : Vec := a.map f

end Vector

/-- A JavaScript `Matrix extends Array<Array<number>>`: the list of row
arrays.  `numRows`/`numCols` are stored fields in the source, but every
instance passes through the validating constructor which sets them to
`rows.length` and `rows[0].length`, so here they are derived. -/
structure Matrix where
  rows : List Vec

namespace Matrix

/-- `numRows` as set by the constructor: `rows.length`. -/
def numRows (m : Matrix) : ℕ := m.rows.length

/-- `numCols` as set by the constructor: `rows[0]?.length ?? 0`. -/
def numCols (m : Matrix) : ℕ := (m.rows.headD []).length

/-- Cell read `this[i][j]` on indices that the surrounding guard keeps in
range (out-of-range reads are modelled separately where reachable). -/
def get (m : Matrix) (i j : ℕ) : ℝ := (m.rows.getD i []).getD j 0

/-- The `Matrix` constructor (src/src/math/matrix.ts lines 42-49): rejects
an empty list of rows and any row whose length differs from the first
row's length, then stores the rows. -/
def mk? (rows : List Vec) : Except JsError Matrix :=
  if rows.length == 0 || rows.any (fun row => row.length != (rows.headD []).length)
  then .error .InvalidMatrix
  else .ok ⟨rows⟩

/-- Well-formedness every constructed matrix enjoys: at least one row and
all rows of length `numCols`.  Stated through `Bool` so it can be decided
on concrete inputs. -/
def WFb (m : Matrix) : Bool :=
  !m.rows.isEmpty && m.rows.all (fun row => row.length = m.numCols)

def WF (m : Matrix) : Prop := m.WFb = true

/-- `normalDot` (src/src/math/matrix.ts lines 85-103): guard
`this.numCols !== b.numRows`, then the triple loop
`sum += this[i][k] * b[k][j]`, then `new Matrix(...result)`. -/
def normalDot (a b : Matrix) : Except JsError Matrix :=
  if a.numCols != b.numRows then .error .DimensionMismatch
  else mk? ((List.range a.numRows).map fun i =>
    (List.range b.numCols).map fun j =>
      ((List.range a.numCols).map fun k => a.get i k * b.get k j).sum)

/-- `transposedDot` (src/src/math/matrix.ts lines 113-131): guard
`this.numRows !== b.numRows`, then loops `i < this.numCols`,
`j < b.numCols`, `sum += this[k][i] * b[k][j]` for `k < this.numRows`,
then `new Matrix(...result)`. -/
def transposedDot (a b : Matrix) : Except JsError Matrix :=
  if a.numRows != b.numRows then .error .DimensionMismatch
  else mk? ((List.range a.numCols).map fun i =>
    (List.range b.numCols).map fun j =>
      ((List.range a.numRows).map fun k => a.get k i * b.get k j).sum)

/-- `transpose` (src/src/math/matrix.ts lines 221-235): builds
`transposedMatrix[j][i] = this[i][j]` and passes it to the constructor
(no guard of its own). -/
def transpose (a : Matrix) : Except JsError Matrix :=
  mk? ((List.range a.numCols).map fun j =>
    (List.range a.numRows).map fun i => a.get i j)

/-- `vectorDot` (src/src/math/matrix.ts lines 157-173): guard
`this.numCols !== b.length`, then `result[i] = sum_j this[i][j] * b[j]`
over `i < this.length` (the row count) and `j < this[0].length`. -/
def vectorDot (m : Matrix) (b : Vec) : Except JsError Vec :=
  if m.numCols != b.length then .error .DimensionMismatch
  else .ok ((List.range m.numRows).map fun i =>
    ((List.range ((m.rows.headD []).length)).map fun j =>
      m.get i j * b.getD j 0).sum)

/-- `getRow` (src/src/math/matrix.ts lines 282-287): bounds check against
`numRows`, then a fresh copy of the row. -/
def getRow (m : Matrix) (idx : ℤ) : Except JsError Vec :=
  if decide (idx < 0) || decide ((m.numRows : ℤ) ≤ idx) then
    .error .IndexOutOfBounds
  else .ok (m.rows.getD idx.toNat [])

/-- `getColumn` (src/src/math/matrix.ts lines 308-317): the bounds check
compares `idx` against `numRows` (not `numCols`), then reads
`this[jdx][idx]` for `jdx < numRows`.  When the check passes but
`idx >= numCols`, every such read yields JavaScript `undefined`; that
outcome is modelled as `JsUndefinedRead`. -/
def getColumn (m : Matrix) (idx : ℤ) : Except JsError Vec :=
  if decide (idx < 0) || decide ((m.numRows : ℤ) ≤ idx) then
    .error .IndexOutOfBounds
  else if decide (idx < (m.numCols : ℤ)) then
    .ok ((List.range m.numRows).map fun jdx => m.get jdx idx.toNat)
  else .error .JsUndefinedRead

/-- `setRow` (src/src/math/matrix.ts lines 294-301): only the length of
the supplied row is validated; then the loop writes
`this[idx][jdx] = row[jdx]` for `jdx < numCols`.  With `idx` out of range
and `numCols >= 1` the first write indexes into `undefined`, a JavaScript
`TypeError`; with `numCols = 0` the loop body never runs and the call
silently does nothing. -/
def setRow (m : Matrix) (idx : ℤ) (row : Vec) : Except JsError Matrix :=
  if row.length != m.numCols then .error .DimensionMismatch
  else if decide (0 ≤ idx) && decide (idx < (m.numRows : ℤ)) then
    .ok ⟨m.rows.set idx.toNat row⟩
  else if m.numCols == 0 then .ok m
  else .error .JsTypeError

/-- `setColumn` (src/src/math/matrix.ts lines 324-331): only the length of
the supplied column is validated; then the loop writes
`this[jdx][idx] = col[jdx]` for `jdx < numRows`.  With `idx` out of range
the writes silently extend (or attach properties to) the row arrays, so
the object is no longer a rectangular matrix; the model records that
outcome as `JsUncheckedWrite`.  With `numRows = 0` (unreachable through
the constructor) the loop body never runs. -/
def setColumn (m : Matrix) (idx : ℤ) (col : Vec) : Except JsError Matrix :=
  if col.length != m.numRows then .error .DimensionMismatch
  else if decide (0 ≤ idx) && decide (idx < (m.numCols : ℤ)) then
    .ok ⟨List.zipWith (fun row v => row.set idx.toNat v) m.rows col⟩
  else if m.numRows == 0 then .ok m
  else .error .JsUncheckedWrite

/-- The `axis` argument of `vectorApply`/`vectorReduce`. -/
inductive AxisType
  | row
  | column
deriving DecidableEq, Repr

/-- The column loop of `vectorApply` (src/src/math/matrix.ts lines
354-357): for each index it reads `this.getColumn(idx)` and writes
`copy.setColumn(idx, f(...))`.  Because `new Matrix(...this)` copies only
the outer array, `copy` and `this` share the row arrays: the reads and
the writes act on the same, single state, which this loop threads. -/
def colLoop (f : Vec → Vec) : List ℕ → Matrix → Except JsError Matrix
  | [], cur => .ok cur
  | idx :: rest, cur => do
    let col ← cur.getColumn (idx : ℤ)
    let next ← cur.setColumn (idx : ℤ) (f col)
    colLoop f rest next

/-- `vectorApply` (src/src/math/matrix.ts lines 345-360).  Row axis: the
source fills every result row with `f(this.getRow(1))` — the row index is
the constant `1`, not the loop variable — and the receiver is untouched.
Column axis: the source mutates the shared row arrays through
`setColumn`, so the receiver ends in the same state as the result.  The
returned pair is (result, state of the receiver after the call). -/
def vectorApply (m : Matrix) (f : Vec → Vec) (axis : AxisType) :
    Except JsError (Matrix × Matrix) :=
  match axis with
  | .row => do
    let fixedRow ← m.getRow 1
    let res ← mk? ((List.range m.numRows).map fun _ => f fixedRow)
    pure (res, m)
  | .column => do
    let start ← mk? m.rows
    let final ← colLoop f (List.range m.numCols) start
    pure (final, final)

end Matrix

/-- The `ImplementedActivationFunction` union type
(src/src/interface/mlp-params.interface.ts). -/
inductive ImplementedActivationFunction
  | sigmoid
  | tanh
  | reLU
  | swish
deriving DecidableEq, Repr

/-- `sigmoid` (src/unnamed/part_000 lines 6-8). -/
def sigmoid (a : ℝ) : ℝ := 1 / (1 + Real.exp (-a))

/-- `sigmoidGradient` (src/unnamed/part_000 lines 9-11). -/
def sigmoidGradient (a : ℝ) : ℝ := sigmoid a * (1 - sigmoid a)

/-- `tanh` (src/unnamed/part_000 lines 13-15): `2*sigmoid(2*a) - 1`. -/
def tanh (a : ℝ) : ℝ := 2 * sigmoid (2 * a) - 1

/-- `tanhGradient` (src/unnamed/part_000 lines 16-18):
`2/(1 + Math.exp(-2*a)) - 1`. -/
def tanhGradient (a : ℝ) : ℝ := 2 / (1 + Real.exp (-(2 * a))) - 1

/-- `reLU` (src/unnamed/part_000 lines 20-22). -/
def reLU (a : ℝ) : ℝ := max 0 a

/-- `reLUGradient` (src/unnamed/part_000 lines 23-25). -/
def reLUGradient (a : ℝ) : ℝ := if 0 < a then 1 else 0

/-- `swish` (src/unnamed/part_000 lines 27-29). -/
def swish (a : ℝ) : ℝ := a * sigmoid a

/-- `swishGradient` (src/unnamed/part_000 lines 30-32). -/
def swishGradient (a : ℝ) : ℝ :=
  sigmoid a + a * sigmoid a * (1 - sigmoid a)

/-- The `activations` record (src/unnamed/part_000 lines 34-41). -/
def activations : ImplementedActivationFunction → ℝ → ℝ
  | .sigmoid => sigmoid
  | .tanh => tanh
  | .reLU => reLU
  | .swish => swish

/-- The `activationGradients` record (src/unnamed/part_000 lines 43-50). -/
def activationGradients : ImplementedActivationFunction → ℝ → ℝ
  | .sigmoid => sigmoidGradient
  | .tanh => tanhGradient
  | .reLU => reLUGradient
  | .swish => swishGradient

/-- A `DenseVectorLayer` (src/src/layer/index.ts): a Vector of activation
values together with the activation key.  The source also stores the
`activation`/`activationGradient` functions, but they are always the
registry entries for the stored key, so here they are derived. -/
structure DenseVectorLayer where
  values : Vec
  activationKey : ImplementedActivationFunction

/-- The bound `activation` field: `activations[key]`. -/
def DenseVectorLayer.activation (l : DenseVectorLayer) : ℝ → ℝ :=
  activations l.activationKey

/-- The bound `activationGradient` field: `activationGradients[key]`. -/
def DenseVectorLayer.activationGradient (l : DenseVectorLayer) : ℝ → ℝ :=
  activationGradients l.activationKey

/-- The `DenseVectorLayer` constructor (src/src/layer/index.ts lines
21-50).  `emptyLayer` is `(!!initialValues && length <= 0) ||
(!initialValues && numNeurons < 0)`; then `fillValues` is the supplied
values when present and non-empty, `numNeurons` zeros when absent and
`numNeurons > 0`, and `[]` otherwise; an empty `fillValues` also throws
`[LAYC]`. -/
def mkDenseVectorLayer (numNeurons : ℤ)
    (activation : ImplementedActivationFunction)
    (initialValues : Option Vec) : Except JsError DenseVectorLayer :=
  let initialValuesLength : ℕ := (initialValues.map List.length).getD 0
  if (initialValues.isSome && initialValuesLength == 0) ||
      (initialValues.isNone && decide (numNeurons < 0)) then
    .error .InvalidLayerSpec
  else
    let fillValues : Vec :=
      match initialValues with
      | some v => if 0 < v.length then v else []
      | none =>
        if decide (0 < numNeurons) then List.replicate numNeurons.toNat 0
        else []
    if fillValues.length == 0 then .error .InvalidLayerSpec
    else .ok ⟨fillValues, activation⟩

/-- `forwardPass` (src/src/layer/index.ts lines 52-69):
`bias.add(weights.dot(this)).apply(this.activation)`, then a new layer
from those values with the *argument* activation key.  A layer is a
`Vector` and not a `Matrix`, so `weights.dot(this)` dispatches to
`Matrix.vectorDot`. -/
def DenseVectorLayer.forwardPass (l : DenseVectorLayer) (weights : Matrix)
    (bias : Vec) (activation : ImplementedActivationFunction) :
    Except JsError DenseVectorLayer := do
  let wv ← weights.vectorDot l.values
  let z ← Vector.add bias wv
  let rawValues := Vector.apply z l.activation
  mkDenseVectorLayer (rawValues.length : ℤ) activation (some rawValues)

end

end PerceptronJS

namespace PerceptronJS

/-! Helper lemmas shared by the claim theorems below. -/

@[simp] theorem ok_bind {A : Type} {B : Type} (x : A) (f : A -> Except JsError B) :
    (Except.ok x >>= f) = f x := rfl

@[simp] theorem error_bind {A : Type} {B : Type} (e : JsError) (f : A -> Except JsError B) :
    ((Except.error e : Except JsError A) >>= f) = Except.error e := rfl

theorem getD_range_map {B : Type} (f : ℕ → B) (d : B) {i n : ℕ} (h : i < n) :
    ((List.range n).map f).getD i d = f i := by
  rw [List.getD_eq_getElem _ _ (by simpa using h)]
  simp

theorem headD_eq_getD {A : Type} (l : List A) (d : A) : l.headD d = l.getD 0 d := by
  cases l <;> simp

theorem mk?_eq_ok {rows : List Vec} (h1 : rows ≠ [])
    (h2 : ∀ r ∈ rows, r.length = (rows.headD []).length) :
    Matrix.mk? rows = .ok ⟨rows⟩ := by
  unfold Matrix.mk?
  rw [if_neg]
  simp only [Bool.or_eq_true, beq_iff_eq, List.any_eq_true, bne_iff_ne, ne_eq, not_or,
    List.length_eq_zero]
  exact ⟨h1, by push_neg; exact h2⟩

theorem mk?_ok_inv {rows : List Vec} {m : Matrix} (h : Matrix.mk? rows = .ok m) :
    m.rows = rows ∧ rows ≠ [] ∧
    ∀ r ∈ rows, r.length = (rows.headD []).length := by
  unfold Matrix.mk? at h
  split at h
  · exact absurd h (by simp)
  · rename_i hc
    simp only [Bool.or_eq_true, beq_iff_eq, List.any_eq_true, bne_iff_ne, ne_eq, not_or,
      List.length_eq_zero] at hc
    push_neg at hc
    exact ⟨by injection h with h2; rw [← h2], hc.1, hc.2⟩

theorem wf_of_mk {rows : List Vec} {m : Matrix} (h : Matrix.mk? rows = .ok m) :
    m.WF := by
  obtain ⟨hrows, hne, hall⟩ := mk?_ok_inv h
  unfold Matrix.WF Matrix.WFb
  simp only [Bool.and_eq_true, List.all_eq_true, decide_eq_true_eq]
  constructor
  · simp [hrows, hne]
  · intro r hr
    rw [Matrix.numCols, hrows]
    exact hall r (by rwa [hrows] at hr)

theorem numCols_rows_set (rows : List Vec) (n : ℕ) {row : Vec}
    (h : row.length = (rows.headD []).length) :
    ((rows.set n row).headD []).length = (rows.headD []).length := by
  cases rows with
  | nil => simp
  | cons a l => cases n <;> simp [h]

theorem setRow_shape {m : Matrix} {idx : ℤ} {row : Vec} {m2 : Matrix}
    (h : m.setRow idx row = .ok m2) :
    m2.numRows = m.numRows ∧ m2.numCols = m.numCols := by
  unfold Matrix.setRow at h
  split at h
  · exact absurd h (by simp)
  · rename_i hlen
    simp only [bne_iff_ne, ne_eq, not_not] at hlen
    split at h
    · injection h with h2
      subst h2
      exact ⟨by simp [Matrix.numRows], by
        simpa [Matrix.numCols] using numCols_rows_set m.rows idx.toNat hlen⟩
    · split at h
      · injection h with h2; subst h2; exact ⟨rfl, rfl⟩
      · exact absurd h (by simp)

theorem numCols_rows_zip_set (rows : List Vec) (n : ℕ) {col : Vec}
    (h : col.length = rows.length) :
    (((List.zipWith (fun row v => List.set row n v) rows col).headD []).length) =
      (rows.headD []).length := by
  cases rows with
  | nil => simp
  | cons a l =>
    cases col with
    | nil => simp at h
    | cons v vs => simp

theorem setColumn_shape {m : Matrix} {idx : ℤ} {col : Vec} {m2 : Matrix}
    (h : m.setColumn idx col = .ok m2) :
    m2.numRows = m.numRows ∧ m2.numCols = m.numCols := by
  unfold Matrix.setColumn at h
  split at h
  · exact absurd h (by simp)
  · rename_i hlen
    simp only [bne_iff_ne, ne_eq, not_not] at hlen
    split at h
    · injection h with h2
      subst h2
      refine ⟨by simp [Matrix.numRows, Matrix.numRows] at hlen ⊢; omega, ?_⟩
      simpa [Matrix.numCols] using
        numCols_rows_zip_set m.rows idx.toNat (by simpa [Matrix.numRows] using hlen)
    · split at h
      · injection h with h2; subst h2; exact ⟨rfl, rfl⟩
      · exact absurd h (by simp)

theorem colLoop_shape (f : Vec → Vec) :
    ∀ (idxs : List ℕ) (cur r : Matrix), Matrix.colLoop f idxs cur = .ok r →
      r.numRows = cur.numRows ∧ r.numCols = cur.numCols := by
  intro idxs
  induction idxs with
  | nil =>
    intro cur r h
    unfold Matrix.colLoop at h
    injection h with h2
    subst h2
    exact ⟨rfl, rfl⟩
  | cons i rest ih =>
    intro cur r h
    unfold Matrix.colLoop at h
    cases hg : cur.getColumn (i : ℤ) with
    | error e => rw [hg] at h; exact absurd h (by simp [error_bind])
    | ok col =>
      rw [hg, ok_bind] at h
      cases hs : cur.setColumn (i : ℤ) (f col) with
      | error e => rw [hs] at h; exact absurd h (by simp [error_bind])
      | ok next =>
        rw [hs, ok_bind] at h
        have h1 := ih next r h
        have h2 := setColumn_shape hs
        exact ⟨h1.1.trans h2.1, h1.2.trans h2.2⟩

theorem vectorApply_receiver_shape {m : Matrix} {f : Vec → Vec} {axis : Matrix.AxisType}
    {r after : Matrix} (h : m.vectorApply f axis = .ok (r, after)) :
    after.numRows = m.numRows ∧ after.numCols = m.numCols := by
  cases axis with
  | row =>
    unfold Matrix.vectorApply at h
    cases hg : m.getRow 1 with
    | error e => rw [hg] at h; exact absurd h (by simp [error_bind])
    | ok row1 =>
      rw [hg, ok_bind] at h
      cases hm : Matrix.mk? ((List.range m.numRows).map fun _ => f row1) with
      | error e => rw [hm] at h; exact absurd h (by simp [error_bind])
      | ok res =>
        rw [hm, ok_bind] at h
        injection h with h2
        have : after = m := (congrArg Prod.snd h2).symm
        rw [this]
        exact ⟨rfl, rfl⟩
  | column =>
    unfold Matrix.vectorApply at h
    cases hs : Matrix.mk? m.rows with
    | error e => rw [hs] at h; exact absurd h (by simp [error_bind])
    | ok start =>
      rw [hs, ok_bind] at h
      cases hl : Matrix.colLoop f (List.range m.numCols) start with
      | error e => rw [hl] at h; exact absurd h (by simp [error_bind])
      | ok final =>
        rw [hl, ok_bind] at h
        injection h with h2
        have hafter : after = final := (congrArg Prod.snd h2).symm
        have hrows : start.rows = m.rows := (mk?_ok_inv hs).1
        have hshape := colLoop_shape f (List.range m.numCols) start final hl
        subst hafter
        constructor
        · rw [hshape.1, Matrix.numRows, Matrix.numRows, hrows]
        · rw [hshape.2, Matrix.numCols, Matrix.numCols, hrows]


theorem numRows_mk (rows : List Vec) : Matrix.numRows ⟨rows⟩ = rows.length := rfl

theorem numCols_mk_range_map (f : ℕ → Vec) {n : ℕ} (h : 1 ≤ n) :
    Matrix.numCols ⟨(List.range n).map f⟩ = (f 0).length := by
  unfold Matrix.numCols
  rw [headD_eq_getD, getD_range_map _ _ h]

theorem get_mk_range_map (f : ℕ → ℕ → ℝ) {n m i j : ℕ} (hi : i < n) (hj : j < m) :
    Matrix.get ⟨(List.range n).map fun i2 => (List.range m).map fun j2 => f i2 j2⟩ i j =
      f i j := by
  unfold Matrix.get
  show (List.getD _ i []).getD j 0 = _
  rw [getD_range_map _ _ hi, getD_range_map _ _ hj]

/-! The claim theorems. -/

/-- C1: the spec claims `Vector.add` returns the element-wise sum and
fails with `DimensionMismatch` exactly when the lengths differ.  The
length guard is as claimed, but the loop body multiplies: at the repo's
own test input (`vectorA = [1,2,3]`, `vectorB = [4,5,6]`, whose test
expects `[5,7,9]`) the code produces `[4,10,18]`. -/
theorem c1_vector_add_multiplies :
    Vector.add [1, 2, 3] [4, 5, 6] = .ok [4, 10, 18] ∧
    Vector.add [1, 2, 3] [4, 5] = .error .DimensionMismatch ∧
    ¬(([4, 10, 18] : Vec) = [5, 7, 9]) := by
  refine ⟨by norm_num [Vector.add], by norm_num [Vector.add], by norm_num⟩

/-- C2: a `DenseVectorLayer` with values `[0,0]` and activation `sigmoid`,
forward-passed with weights `[[1,0],[0,1]]`, bias `[0,0]` and output
activation `sigmoid`, returns a new layer with values `[0.5, 0.5]`
(computed, as in the source, by `bias.add(weights.dot(this))` followed by
`apply(this.activation)`; `sigmoid 0 = 1/2` exactly). -/
theorem c2_forward_pass_scenario :
    DenseVectorLayer.forwardPass ⟨[0, 0], .sigmoid⟩ ⟨[[1, 0], [0, 1]]⟩ [0, 0] .sigmoid =
      .ok ⟨[1 / 2, 1 / 2], .sigmoid⟩ := by
  simp [DenseVectorLayer.forwardPass, Matrix.vectorDot, Matrix.numRows, Matrix.numCols,
    Matrix.get, Vector.add, Vector.apply, DenseVectorLayer.activation, activations,
    mkDenseVectorLayer, List.range_succ, ok_bind, error_bind]
  norm_num [sigmoid, Real.exp_zero]

/-- C3 (amended): `A.transposedDot(B)` fails with `DimensionMismatch` when
`A.numRows != B.numRows`; when the row counts agree it additionally fails
(with the constructor's invalid-matrix error, a case the original claim
misses) when `A.numCols = 0`, and for `A.numCols >= 1` it returns exactly
`A.transpose().normalDot(B)`: the `A.numCols x B.numCols` matrix with cell
`(i, j)` equal to the sum over `k` of `A[k][i] * B[k][j]`. -/
theorem c3_transposed_dot_amended (a b : Matrix) :
    (a.numRows ≠ b.numRows → a.transposedDot b = .error .DimensionMismatch) ∧
    (a.numRows = b.numRows → a.numCols = 0 →
      a.transposedDot b = .error .InvalidMatrix) ∧
    (a.numRows = b.numRows → 1 ≤ a.numCols →
      a.transposedDot b = (a.transpose >>= fun t => t.normalDot b) ∧
      ∃ r : Matrix, a.transposedDot b = .ok r ∧
        r.numRows = a.numCols ∧ r.numCols = b.numCols ∧
        ∀ i j : ℕ, i < a.numCols → j < b.numCols →
          r.get i j =
            ((List.range a.numRows).map fun k => a.get k i * b.get k j).sum) := by
  refine ⟨?_, ?_, ?_⟩
  · intro hne
    unfold Matrix.transposedDot
    rw [if_pos (by simpa using hne)]
  · intro heq h0
    unfold Matrix.transposedDot
    rw [if_neg (by simp [heq])]
    simp [h0, Matrix.mk?]
  · intro heq hc
    have hG : Matrix.mk?
        ((List.range a.numCols).map fun i =>
          (List.range b.numCols).map fun j =>
            ((List.range a.numRows).map fun k => a.get k i * b.get k j).sum) =
        .ok ⟨(List.range a.numCols).map fun i =>
          (List.range b.numCols).map fun j =>
            ((List.range a.numRows).map fun k => a.get k i * b.get k j).sum⟩ := by
      apply mk?_eq_ok
      · simp only [ne_eq, List.map_eq_nil_iff, List.range_eq_nil]
        omega
      · intro r hr
        rcases List.mem_map.1 hr with ⟨i, hi, rfl⟩
        rw [headD_eq_getD, getD_range_map _ _ hc]
        simp
    have hT : a.transpose = .ok ⟨(List.range a.numCols).map fun j =>
        (List.range a.numRows).map fun i => a.get i j⟩ := by
      unfold Matrix.transpose
      apply mk?_eq_ok
      · simp only [ne_eq, List.map_eq_nil_iff, List.range_eq_nil]
        omega
      · intro r hr
        rcases List.mem_map.1 hr with ⟨j, hj, rfl⟩
        rw [headD_eq_getD, getD_range_map _ _ hc]
        simp
    have hLHS : a.transposedDot b = .ok ⟨(List.range a.numCols).map fun i =>
        (List.range b.numCols).map fun j =>
          ((List.range a.numRows).map fun k => a.get k i * b.get k j).sum⟩ := by
      unfold Matrix.transposedDot
      rw [if_neg (by simp [heq]), hG]
    have hTcols : Matrix.numCols ⟨(List.range a.numCols).map fun j =>
        (List.range a.numRows).map fun i => a.get i j⟩ = a.numRows := by
      rw [numCols_mk_range_map _ hc]
      simp
    have hTrows : Matrix.numRows ⟨(List.range a.numCols).map fun j =>
        (List.range a.numRows).map fun i => a.get i j⟩ = a.numCols := by
      rw [numRows_mk]
      simp
    have hRHS : (a.transpose >>= fun t => t.normalDot b) = .ok ⟨(List.range a.numCols).map fun i =>
        (List.range b.numCols).map fun j =>
          ((List.range a.numRows).map fun k => a.get k i * b.get k j).sum⟩ := by
      rw [hT, ok_bind]
      unfold Matrix.normalDot
      rw [if_neg (by
        simp only [bne_iff_ne, ne_eq, not_not]
        rw [hTcols, heq]), hTcols, hTrows]
      have hgrid : ((List.range a.numCols).map fun i =>
          (List.range b.numCols).map fun j =>
            ((List.range a.numRows).map fun k =>
              Matrix.get ⟨(List.range a.numCols).map fun j2 =>
                (List.range a.numRows).map fun i2 => a.get i2 j2⟩ i k * b.get k j).sum) =
          ((List.range a.numCols).map fun i =>
          (List.range b.numCols).map fun j =>
            ((List.range a.numRows).map fun k => a.get k i * b.get k j).sum) := by
        apply List.map_congr_left
        intro i hi
        apply List.map_congr_left
        intro j hj
        congr 1
        apply List.map_congr_left
        intro k hk
        rw [get_mk_range_map _ (List.mem_range.1 hi) (List.mem_range.1 hk)]
      rw [hgrid, hG]
    refine ⟨hLHS.trans hRHS.symm, ⟨_, hLHS, ?_, ?_, ?_⟩⟩
    · rw [numRows_mk]
      simp
    · rw [numCols_mk_range_map _ hc]
      simp
    · intro i j hi hj
      rw [get_mk_range_map _ hi hj]


/-- C3 witness: the amended equivalence at a concrete 2x2 matrix and a
concrete 2x1 matrix, and the dimension-mismatch failure at a concrete
mismatched pair. -/
theorem c3_transposed_dot_witness :
    Matrix.transposedDot ⟨[[1, 2], [3, 4]]⟩ ⟨[[5], [6]]⟩ =
      (Matrix.transpose ⟨[[1, 2], [3, 4]]⟩ >>= fun t => t.normalDot ⟨[[5], [6]]⟩) ∧
    Matrix.transposedDot ⟨[[1, 1], [1, 1]]⟩ ⟨[[1]]⟩ = .error .DimensionMismatch := by
  exact ⟨((c3_transposed_dot_amended ⟨[[1, 2], [3, 4]]⟩ ⟨[[5], [6]]⟩).2.2 rfl
      (by decide)).1,
    (c3_transposed_dot_amended ⟨[[1, 1], [1, 1]]⟩ ⟨[[1]]⟩).1 (by decide)⟩

/-- C3 counterexample: the 1x0 matrix `[[]]` is accepted by the
constructor; `transposedDot` applied to two such matrices has equal row
counts, yet it fails (with the constructor's invalid-matrix error, not
`DimensionMismatch`), refuting the claim that it fails exactly when the
row counts differ. -/
theorem c3_transposed_dot_counterexample :
    Matrix.mk? [[]] = .ok ⟨[[]]⟩ ∧
    Matrix.numRows ⟨[[]]⟩ = Matrix.numRows ⟨[[]]⟩ ∧
    Matrix.transposedDot ⟨[[]]⟩ ⟨[[]]⟩ = .error .InvalidMatrix ∧
    Matrix.transposedDot ⟨[[]]⟩ ⟨[[]]⟩ ≠ .error .DimensionMismatch := by
  have h : Matrix.transposedDot ⟨[[]]⟩ ⟨[[]]⟩ = .error .InvalidMatrix := by
    norm_num [Matrix.transposedDot, Matrix.numRows, Matrix.numCols, Matrix.mk?]
  exact ⟨by norm_num [Matrix.mk?], rfl, h, by rw [h]; simp⟩

/-- C4: the spec claims `vectorApply(f, row)` maps `f` over the actual
indexed rows.  The source indexes the constant row `1` instead of the loop
variable: on `[[1,2],[3,4]]` with `f = id` every result row is `[3,4]`,
although row `0` of the receiver is `[1,2]`. -/
theorem c4_vector_apply_fixed_row :
    Matrix.vectorApply ⟨[[1, 2], [3, 4]]⟩ (fun v => v) .row =
      .ok (⟨[[3, 4], [3, 4]]⟩, ⟨[[1, 2], [3, 4]]⟩) ∧
    Matrix.getRow ⟨[[1, 2], [3, 4]]⟩ 0 = .ok [1, 2] ∧
    ¬(([3, 4] : Vec) = [1, 2]) := by
  refine ⟨?_, ?_, by norm_num⟩
  · norm_num [Matrix.vectorApply, Matrix.getRow, Matrix.numRows, Matrix.mk?,
      List.range_succ, Except.bind]
  · norm_num [Matrix.getRow, Matrix.numRows]

/-- C5: the spec claims `getColumn(j)` fails exactly when `j` is outside
`[0, numCols)`.  The source checks `j` against `numRows` instead: on the
2x3 matrix `[[1,2,3],[4,5,6]]` the valid column index `2 < numCols = 3`
is rejected with the index-out-of-bounds error. -/
theorem c5_get_column_checks_rows :
    Matrix.getColumn ⟨[[1, 2, 3], [4, 5, 6]]⟩ 2 = .error .IndexOutOfBounds ∧
    2 < Matrix.numCols ⟨[[1, 2, 3], [4, 5, 6]]⟩ := by
  constructor
  · norm_num [Matrix.getColumn, Matrix.numRows]
  · norm_num [Matrix.numCols]

/-- C6: `DenseVectorLayer` construction succeeds exactly when `initialValues`
is supplied and non-empty (the layer then holds those values) or
`initialValues` is absent and `numNeurons > 0` (the layer is then
zero-filled with `numNeurons` entries); every other combination — in
particular `numNeurons = 0` with no `initialValues`, or an empty
`initialValues` list — fails with `InvalidLayerSpec`. -/
theorem c6_layer_construction (numNeurons : ℤ) (activation : ImplementedActivationFunction)
    (initialValues : Option Vec) :
    (∀ v : Vec, initialValues = some v → v ≠ [] →
      mkDenseVectorLayer numNeurons activation initialValues = .ok ⟨v, activation⟩) ∧
    (initialValues = none → 0 < numNeurons →
      mkDenseVectorLayer numNeurons activation initialValues =
        .ok ⟨List.replicate numNeurons.toNat 0, activation⟩) ∧
    (initialValues = some [] →
      mkDenseVectorLayer numNeurons activation initialValues = .error .InvalidLayerSpec) ∧
    (initialValues = none → numNeurons ≤ 0 →
      mkDenseVectorLayer numNeurons activation initialValues = .error .InvalidLayerSpec) := by
  refine ⟨?_, ?_, ?_, ?_⟩
  · rintro v rfl hv
    have hl : v.length ≠ 0 := by simpa [List.length_eq_zero] using hv
    simp [mkDenseVectorLayer, hl, Nat.pos_of_ne_zero hl]
  · rintro rfl hn
    have h0 : numNeurons.toNat ≠ 0 := by omega
    simp [mkDenseVectorLayer, not_lt.2 hn.le, hn, h0]
  · rintro rfl
    simp [mkDenseVectorLayer]
  · rintro rfl hn
    rcases lt_or_eq_of_le hn with h | h
    · simp [mkDenseVectorLayer, h]
    · simp [mkDenseVectorLayer, ← h]

/-- C6 witness: scenario 5 of the spec (`numNeurons = 0`, no initial
values, fails with `InvalidLayerSpec`) together with a zero-filled
construction, a construction from explicit values, and the empty
initial-values failure, each an instance of the C6 theorem. -/
theorem c6_layer_construction_witness :
    mkDenseVectorLayer 0 .reLU none = .error .InvalidLayerSpec ∧
    mkDenseVectorLayer 3 .sigmoid none =
      .ok ⟨List.replicate (3 : ℤ).toNat 0, .sigmoid⟩ ∧
    mkDenseVectorLayer 0 .swish (some [7]) = .ok ⟨[7], .swish⟩ ∧
    mkDenseVectorLayer 5 .tanh (some []) = .error .InvalidLayerSpec := by
  exact ⟨(c6_layer_construction 0 .reLU none).2.2.2 rfl (by decide),
    (c6_layer_construction 3 .sigmoid none).2.1 rfl (by decide),
    (c6_layer_construction 0 .swish (some [7])).1 [7] rfl (by simp),
    (c6_layer_construction 5 .tanh (some [])).2.2.1 rfl⟩

/-- C7: the spec says the registry's `tanh` gradient should be the
analytic derivative `1 - tanh(a)^2` of the registry's tanh
`2*sigmoid(2a) - 1`.  The source's `tanhGradient` is algebraically equal
to `tanh` itself, so at `a = 0` the code yields `0` while the true
derivative is `1`. -/
theorem c7_tanh_gradient_is_tanh :
    (∀ a : ℝ, tanhGradient a = tanh a) ∧
    tanhGradient 0 = 0 ∧
    (1 : ℝ) - tanh 0 ^ 2 = 1 ∧
    tanhGradient 0 ≠ 1 - tanh 0 ^ 2 := by
  refine ⟨?_, ?_, ?_, ?_⟩
  · intro a
    rw [tanhGradient, tanh, sigmoid]
    ring_nf
  · norm_num [tanhGradient, Real.exp_zero]
  · norm_num [tanh, sigmoid, Real.exp_zero]
  · norm_num [tanhGradient, tanh, sigmoid, Real.exp_zero]

/-- C8: the spec claims `vectorApply` never mutates the receiver.  The
column branch copies only the outer array (`new Matrix(...this)` shares
the row arrays), so `setColumn` mutates the receiver: on `[[1,2],[3,4]]`
with `f` adding one to each component, the receiver ends equal to the
result `[[2,3],[4,5]]`, no longer its original cells. -/
theorem c8_vector_apply_column_mutates :
    Matrix.vectorApply ⟨[[1, 2], [3, 4]]⟩ (fun v => v.map (· + 1)) .column =
      .ok (⟨[[2, 3], [4, 5]]⟩, ⟨[[2, 3], [4, 5]]⟩) ∧
    ¬((⟨[[2, 3], [4, 5]]⟩ : Matrix) = ⟨[[1, 2], [3, 4]]⟩) := by
  constructor
  · simp [Matrix.vectorApply, Matrix.colLoop, Matrix.getColumn,
      Matrix.setColumn, Matrix.mk?, Matrix.numRows, Matrix.numCols,
      Matrix.get, List.range_succ]
    norm_num
  · simp only [Matrix.mk.injEq]
    norm_num

/-- C9 (amended): every Matrix accepted by the constructor has
`numRows >= 1` and is rectangular with every row of length `numCols`
(`numCols = 0` is possible: a list of empty rows is accepted, which the
original claim's `numCols >= 1` misses); the constructor rejects the empty
row list and any ragged row list; and the row/column setters and
`vectorApply` leave `numRows`/`numCols` of the receiver unchanged. -/
theorem c9_shape_invariants_amended :
    (∀ (rows : List Vec) (m : Matrix), Matrix.mk? rows = .ok m →
      m.rows = rows ∧ 1 ≤ m.numRows ∧ m.WF) ∧
    (Matrix.mk? [] = .error .InvalidMatrix) ∧
    (∀ rows : List Vec, (∃ r ∈ rows, r.length ≠ (rows.headD []).length) →
      Matrix.mk? rows = .error .InvalidMatrix) ∧
    (∀ (m : Matrix) (idx : ℤ) (row : Vec) (m2 : Matrix), m.setRow idx row = .ok m2 →
      m2.numRows = m.numRows ∧ m2.numCols = m.numCols) ∧
    (∀ (m : Matrix) (idx : ℤ) (col : Vec) (m2 : Matrix), m.setColumn idx col = .ok m2 →
      m2.numRows = m.numRows ∧ m2.numCols = m.numCols) ∧
    (∀ (m : Matrix) (f : Vec → Vec) (axis : Matrix.AxisType) (r after : Matrix),
      m.vectorApply f axis = .ok (r, after) →
      after.numRows = m.numRows ∧ after.numCols = m.numCols) := by
  refine ⟨?_, by simp [Matrix.mk?], ?_, ?_, ?_, ?_⟩
  · intro rows m h
    obtain ⟨hrows, hne, hall⟩ := mk?_ok_inv h
    refine ⟨hrows, ?_, wf_of_mk h⟩
    rw [Matrix.numRows, hrows]
    cases rows
    · exact absurd rfl hne
    · simp
  · rintro rows ⟨r, hr, hne⟩
    unfold Matrix.mk?
    rw [if_pos]
    simp only [Bool.or_eq_true, List.any_eq_true, bne_iff_ne, ne_eq]
    exact Or.inr ⟨r, hr, hne⟩
  · intro m idx row m2 h
    exact setRow_shape h
  · intro m idx col m2 h
    exact setColumn_shape h
  · intro m f axis r after h
    exact vectorApply_receiver_shape h

/-- C9 witness: the amended invariants instantiated on the concrete
matrix `[[1,2]]` and a concrete in-bounds `setRow` call on it. -/
theorem c9_shape_invariants_witness :
    (⟨[[1, 2]]⟩ : Matrix).rows = [[1, 2]] ∧
    1 ≤ (⟨[[1, 2]]⟩ : Matrix).numRows ∧
    (⟨[[1, 2]]⟩ : Matrix).WF ∧
    (⟨[[5, 6]]⟩ : Matrix).numRows = (⟨[[1, 2]]⟩ : Matrix).numRows ∧
    (⟨[[5, 6]]⟩ : Matrix).numCols = (⟨[[1, 2]]⟩ : Matrix).numCols := by
  have h1 := c9_shape_invariants_amended.1 [[1, 2]] ⟨[[1, 2]]⟩ rfl
  have h2 := c9_shape_invariants_amended.2.2.2.1 ⟨[[1, 2]]⟩ 0 [5, 6] ⟨[[5, 6]]⟩ rfl
  exact ⟨h1.1, h1.2.1, h1.2.2, h2.1, h2.2⟩

/-- C9 counterexample: the constructor accepts the single empty row
`[[]]`, producing a matrix with `numCols = 0`, refuting the original
claim that every accepted matrix has `numCols >= 1`. -/
theorem c9_numcols_counterexample :
    Matrix.mk? [[]] = .ok ⟨[[]]⟩ ∧
    Matrix.numCols ⟨[[]]⟩ = 0 ∧
    ¬(1 ≤ Matrix.numCols ⟨[[]]⟩) := by
  exact ⟨by norm_num [Matrix.mk?], rfl, by decide⟩

/-- C10 (amended): `setRow`/`setColumn` validate only the length of the
supplied values, never the index.  An out-of-range index never produces an
`IndexOutOfBounds` error.  `setColumn` (whose loop always runs, since
`numRows >= 1` for constructed matrices) reaches an unguarded write to a
nonexistent cell; `setRow` reaches an unguarded access to the nonexistent
row whenever `numCols >= 1`, while for `numCols = 0` its loop body never
runs and the call silently does nothing (the case the original claim
misses). -/
theorem c10_setters_length_only_amended (m : Matrix) (idx : ℤ) :
    (∀ row : Vec, row.length = m.numCols →
      (idx < 0 ∨ (m.numRows : ℤ) ≤ idx) →
      m.setRow idx row ≠ .error .IndexOutOfBounds ∧
      (1 ≤ m.numCols → m.setRow idx row = .error .JsTypeError) ∧
      (m.numCols = 0 → m.setRow idx row = .ok m)) ∧
    (∀ col : Vec, col.length = m.numRows →
      (idx < 0 ∨ (m.numCols : ℤ) ≤ idx) → 1 ≤ m.numRows →
      m.setColumn idx col = .error .JsUncheckedWrite ∧
      m.setColumn idx col ≠ .error .IndexOutOfBounds) := by
  constructor
  · intro row hlen hout
    have hb : ¬(0 ≤ idx ∧ idx < (m.numRows : ℤ)) := by omega
    unfold Matrix.setRow
    rw [if_neg (by simp [hlen]), if_neg (by simpa using hb)]
    refine ⟨?_, ?_, ?_⟩
    · split <;> simp
    · intro h1
      rw [if_neg (by simp; omega)]
    · intro h0
      rw [if_pos (by simp [h0])]
  · intro col hlen hout hrows
    have hb : ¬(0 ≤ idx ∧ idx < (m.numCols : ℤ)) := by omega
    unfold Matrix.setColumn
    rw [if_neg (by simp [hlen]), if_neg (by simpa using hb),
      if_neg (by simp; omega)]
    simp


/-- C10 witness: out-of-bounds setter calls with correctly sized values on
the matrix `[[1,2]]`: `setRow` hits the JavaScript `TypeError` of
indexing `undefined` (not `IndexOutOfBounds`), and `setColumn` reaches
the silent unchecked cell write, each an instance of the C10 theorem. -/
theorem c10_setters_length_only_witness :
    Matrix.setRow ⟨[[1, 2]]⟩ 5 [3, 4] = .error .JsTypeError ∧
    Matrix.setColumn ⟨[[1, 2]]⟩ 5 [3] = .error .JsUncheckedWrite ∧
    Matrix.setRow ⟨[[1, 2]]⟩ 5 [3, 4] ≠ .error .IndexOutOfBounds := by
  have h := c10_setters_length_only_amended ⟨[[1, 2]]⟩ 5
  have hr := h.1 [3, 4] rfl (Or.inr (by decide))
  have hc := h.2 [3] rfl (Or.inr (by decide)) (by decide)
  exact ⟨hr.2.1 (by decide), hc.1, hr.1⟩

/-- C10 counterexample: on the constructor-accepted matrix `[[]]`
(`numCols = 0`) an out-of-range `setRow` with the required empty values
raises nothing at all — the loop body never runs, so no unguarded access
is reached, refuting the original claim's universally quantified
"reaches an unguarded access". -/
theorem c10_silent_noop_counterexample :
    Matrix.mk? [[]] = .ok ⟨[[]]⟩ ∧
    Matrix.setRow ⟨[[]]⟩ 5 [] = .ok ⟨[[]]⟩ ∧
    Matrix.setRow ⟨[[]]⟩ 5 [] ≠ .error .IndexOutOfBounds ∧
    Matrix.setRow ⟨[[]]⟩ 5 [] ≠ .error .JsTypeError := by
  have h : Matrix.setRow ⟨[[]]⟩ 5 [] = .ok ⟨[[]]⟩ := rfl
  exact ⟨by norm_num [Matrix.mk?], h, by rw [h]; simp, by rw [h]; simp⟩

end PerceptronJS
